import Mathlib

/-!
Verification of the tcp-proxy repository (ming900518/tcp-proxy).

The development shallowly embeds the two source files:

* `src/types.rs` — raw rule records (`RawConfig`), port specifications
  (`SourcePortOptions` / `TargetPortOptions`), normalization into concrete
  address pairs (`ProxyConfig::from_raw`, collecting into a
  `BTreeSet<(SocketAddrV4, SocketAddrV4)>`), and the address choices made by
  `ProxyConfig::start_proxy` (bind `target_addr`, dial `source_addr`).
* `src/main.rs` — the file-descriptor-limit step of the orchestrator loop
  (`getrlimit` / `setrlimit` around lines 65–75) and the control-plane
  handlers `add_rules` and `remove_rules`, with file-system and syscall
  results abstracted as explicit inputs.

Machine integers are modelled as `Nat`; the one place where u16 overflow
matters (the range-length comparison in `from_raw`) is modelled with an
explicit wrapping subtraction modulo 2^16.
-/

namespace TcpProxy

/-- `std::net::Ipv4Addr` is a 32-bit value; `Ipv4Addr::new(a,b,c,d)` packs
four octets big-endian. Ordering and equality on `Ipv4Addr` are those of the
packed value. -/
structure Ipv4 where
  val : Nat
deriving DecidableEq, Repr

/-- `Ipv4Addr::new` (octets are u8, hence the `% 256`). -/
def Ipv4.new (a b c d : Nat) : Ipv4 :=
  ⟨((a % 256 * 256 + b % 256) * 256 + c % 256) * 256 + d % 256⟩

/-- `std::net::SocketAddrV4`: an IPv4 address plus a port. -/
structure SockAddrV4 where
  ip : Ipv4
  port : Nat
deriving DecidableEq, Repr

/-- `SocketAddrV4::new`. -/
def SockAddrV4.new (ip : Ipv4) (port : Nat) : SockAddrV4 :=
  ⟨ip, port⟩

/-- Rust `Ord` on `SocketAddrV4`: by IP (as its 32-bit value), then port. -/
def sockLt (s t : SockAddrV4) : Bool :=
  s.ip.val < t.ip.val || (s.ip.val = t.ip.val && s.port < t.port)

/-- The element type of the `BTreeSet` in `ProxyConfig::from_raw`:
`(SocketAddrV4, SocketAddrV4)` where the first component is the upstream
(source) address and the second the listen (target) address. -/
abbrev AddrPair := SockAddrV4 × SockAddrV4

/-- Rust `Ord` on the tuple `(SocketAddrV4, SocketAddrV4)`: lexicographic. -/
def pairLtb (x y : AddrPair) : Bool :=
  sockLt x.1 y.1 || (x.1 = y.1 && sockLt x.2 y.2)

/-- `SourcePortOptions` from `src/types.rs`: an untagged choice of a
`Range { start, end }` (inclusive) or a `Single` u16 port. -/
inductive SourcePortOptions where
  | Range (start stop : Nat)
  | Single (port : Nat)
deriving DecidableEq, Repr

/-- `TargetPortOptions` from `src/types.rs`, identical shape. -/
inductive TargetPortOptions where
  | Range (start stop : Nat)
  | Single (port : Nat)
deriving DecidableEq, Repr

/-- `RawConfig` from `src/types.rs`: one persisted raw rule. -/
structure RawConfig where
  ip : String
  port : SourcePortOptions
  target_port : TargetPortOptions
deriving DecidableEq, Repr

/-- Split a character list at every dot, as `Ipv4Addr`'s parser does with
its four dot-separated groups. -/
def splitDots : List Char → List (List Char)
  | [] => [[]]
  | c :: cs =>
    if c = '.' then [] :: splitDots cs
    else
      match splitDots cs with
      | [] => [[c]]
      | g :: gs => (c :: g) :: gs

/-- Numeric value of a digit list (most significant first). -/
def digitsVal : List Char → Nat → Nat
  | [], acc => acc
  | c :: cs, acc => digitsVal cs (acc * 10 + (c.toNat - 48))

/-- One octet of the `Ipv4Addr` string parser: non-empty, all digits, no
leading zero (except the single digit `0`), value at most 255. -/
def parseOctet (cs : List Char) : Option Nat :=
  match cs with
  | [] => none
  | ['0'] => some 0
  | '0' :: _ => none
  | _ =>
    if cs.all Char.isDigit then
      let v := digitsVal cs 0
      if v ≤ 255 then some v else none
    else none

/-- `str::parse::<Ipv4Addr>`: four dot-separated octets. -/
def parseIpv4 (s : String) : Option Ipv4 :=
  match splitDots s.toList with
  | [a, b, c, d] =>
    match parseOctet a, parseOctet b, parseOctet c, parseOctet d with
    | some a, some b, some c, some d => some (Ipv4.new a b c d)
    | _, _, _, _ => none
  | _ => none

/-- `ProxyConfig` from `src/types.rs`: `source_addr` is the upstream address
that `start_proxy` dials, `target_addr` the local address it binds. -/
structure ProxyConfig where
  source_addr : SockAddrV4
  target_addr : SockAddrV4
deriving DecidableEq, Repr

/-- `ProxyConfig::new`, taking the `(source_addr, target_addr)` tuple. -/
def ProxyConfig.new (p : AddrPair) : ProxyConfig :=
  ⟨p.1, p.2⟩

/-- The `Ipv4Addr::new(0, 0, 0, 0)` wildcard bound as `target_ip` at the top
of `from_raw`. -/
def wildcardIp : Ipv4 := Ipv4.new 0 0 0 0

/-- Rust's inclusive range `s..=e` as a list: empty when `e < s`. -/
def rangeIncl (s e : Nat) : List Nat :=
  if s ≤ e then List.range' s (e - s + 1) else []

/-- The closure passed to `filter_map` in `ProxyConfig::from_raw`: parse the
rule's IP (skip the rule on failure), then match the two port options —
both `Range` zips the two inclusive ranges, both `Single` yields one pair,
any other combination is skipped. Each emitted pair is
`(SocketAddrV4::new(source_ip, source_port), SocketAddrV4::new(target_ip, target_port))`. -/
def emitPairs (raw_config : RawConfig) : Option (List AddrPair) :=
  match parseIpv4 raw_config.ip with
  | none => none
  | some source_ip =>
    match raw_config.port, raw_config.target_port with
    | .Range source_start source_end, .Range target_start target_end =>
      some (((rangeIncl source_start source_end).zip
              (rangeIncl target_start target_end)).map
        (fun p => (SockAddrV4.new source_ip p.1, SockAddrV4.new wildcardIp p.2)))
    | .Single source_port, .Single target_port =>
      some [(SockAddrV4.new source_ip source_port, SockAddrV4.new wildcardIp target_port)]
    | _, _ => none

/-- Insertion into a strictly-sorted list, keeping the existing element when
the key is already present: the behaviour of `BTreeSet::insert`. -/
def setInsert (x : AddrPair) : List AddrPair → List AddrPair
  | [] => [x]
  | y :: ys =>
    if pairLtb x y then x :: y :: ys
    else if x = y then y :: ys
    else y :: setInsert x ys

/-- `collect::<BTreeSet<_>>` on an iterator: insert the items left to right,
yielding the strictly ascending list of distinct items. -/
def btreeOfList (l : List AddrPair) : List AddrPair :=
  l.foldl (fun s x => setInsert x s) []

/-- `ProxyConfig::from_raw`: `filter_map` each raw rule through `emitPairs`,
flatten, collect into the ordered set, and wrap each surviving pair in a
`ProxyConfig`. -/
def ProxyConfig.from_raw (raw_config_list : List RawConfig) : List ProxyConfig :=
  (btreeOfList ((raw_config_list.filterMap emitPairs).flatten)).map ProxyConfig.new

/-- The address `start_proxy` binds its `TcpListener` to
(`TcpListener::bind(self.target_addr)` in `src/types.rs`). -/
def ProxyConfig.bind_addr (c : ProxyConfig) : SockAddrV4 :=
  c.target_addr

/-- The address `start_proxy` dials for each accepted connection
(`TcpStream::connect(self.source_addr)` in `src/types.rs`). -/
def ProxyConfig.connect_addr (c : ProxyConfig) : SockAddrV4 :=
  c.source_addr

/-- The ordering the `BTreeSet` in `from_raw` leaves the emitted
`ProxyConfig`s in, phrased on `ProxyConfig`: lexicographic by upstream
(`source_addr`), then by listen address (`target_addr`). -/
def configLt (c d : ProxyConfig) : Bool :=
  sockLt c.source_addr d.source_addr ||
    (c.source_addr = d.source_addr && sockLt c.target_addr d.target_addr)

/-- Whether a raw rule's two port options hit the catch-all `_` arm of the
match in `from_raw` (neither both `Range` nor both `Single`). -/
def portKindsMismatch (raw_config : RawConfig) : Bool :=
  match raw_config.port, raw_config.target_port with
  | .Range _ _, .Range _ _ => false
  | .Single _, .Single _ => false
  | _, _ => true

/-- Wrapping u16 subtraction: what `source_end - source_start` computes in
`from_raw`'s range-length comparison under release-mode (wrapping)
semantics when the operands are u16 values. -/
def u16_wsub (a b : Nat) : Nat :=
  (a % 65536 + 65536 - b % 65536) % 65536

/-- The condition under which either u16 subtraction in `from_raw`'s
range-length comparison (`source_end - source_start` or
`target_end - target_start`, `src/types.rs` line 134) underflows, i.e.
panics under debug assertions and wraps modulo 2^16 in release builds.
`false` for rules that never reach that comparison. -/
def rangeSubUnderflows (raw_config : RawConfig) : Bool :=
  match raw_config.port, raw_config.target_port with
  | .Range source_start source_end, .Range target_start target_end =>
    decide (source_end < source_start) || decide (target_end < target_start)
  | _, _ => false

/-- The boolean the `warn!` guard in `from_raw` evaluates, with the two u16
subtractions taken with wrapping (release-mode) semantics. -/
def rangeLengthsDiffer (raw_config : RawConfig) : Bool :=
  match raw_config.port, raw_config.target_port with
  | .Range source_start source_end, .Range target_start target_end =>
    decide (u16_wsub source_end source_start ≠ u16_wsub target_end target_start)
  | _, _ => false

/-- Number of values Rust's inclusive range `s..=e` yields. -/
def lenIncl (s e : Nat) : Nat :=
  if s ≤ e then e - s + 1 else 0

/-! ## Embedding of `src/main.rs`

The orchestrator's file-descriptor-limit step and the two control-plane
handlers, with the syscall / file-system results they consume abstracted as
explicit inputs (`getrlimit`'s result, whether `setrlimit` / serialization /
`fs::write` succeed, the parsed contents of the persisted store).
-/

/-- `desired_limit` from `src/main.rs` line 65:
`(proxy_config.len() / 10 * 20 + 1) as u64`. -/
def desired_limit (ruleCount : Nat) : Nat :=
  ruleCount / 10 * 20 + 1

/-- How the orchestrator's limit-handling step ends: fall through to
launching the listeners (silently or after the `warn!`), or terminate the
orchestrator with an error. -/
inductive LimitOutcome where
  | proceed
  | warned
  | fatal
deriving DecidableEq, Repr

/-- The `match getrlimit(...)` block of `src/main.rs` lines 67–75.
`getRes` is `getrlimit`'s result (`some (soft, hard)` or a failure);
`setOk` is whether the `setrlimit` call would succeed. Returns the outcome
together with the `(soft, hard)` pair passed to `setrlimit`, when the code
reaches that call. The guarded arm fires when `soft_limit <= proxy_config.len()`;
its `setrlimit(...)?` propagates a failure out of the orchestrator. An
`Err` from `getrlimit` only logs a warning; any other `Ok` does nothing. -/
def limit_step (getRes : Option (Nat × Nat)) (setOk : Bool) (ruleCount : Nat) :
    LimitOutcome × Option (Nat × Nat) :=
  match getRes with
  | some (soft_limit, hard_limit) =>
    if soft_limit ≤ ruleCount then
      if setOk then (.proceed, some (desired_limit ruleCount, hard_limit))
      else (.fatal, some (desired_limit ruleCount, hard_limit))
    else (.proceed, none)
  | none => (.warned, none)

/-- Observable result of a control-plane handler: the status string it
responds with, the store contents it successfully wrote back (`none` when
it never completed a write), and whether it fired `RESTART_PROXY.notify_one()`. -/
structure CtrlOutcome where
  status : String
  written : Option (List RawConfig)
  restartFired : Bool
deriving DecidableEq, Repr

/-- The `add_rules` handler of `src/main.rs` lines 96–119. `configPath` is
`CONFIG_PATH.get()`; `readRes` is `RawConfig::read_from_path`'s result;
`serializeOk` / `writeOk` are whether `serde_json::to_string_pretty` and
`std::fs::write` succeed. Each `let ... else` short-circuits with its
status string; on success the concatenation of the original and new rules
is written and the restart signal fired. -/
def add_rules (configPath : Option String) (readRes : Option (List RawConfig))
    (serializeOk writeOk : Bool) (new_raw_config : List RawConfig) : CtrlOutcome :=
  match configPath with
  | none => ⟨"Couldn't get config path.", none, false⟩
  | some _ =>
    match readRes with
    | none => ⟨"Original config is invalid.", none, false⟩
    | some original_raw_config =>
      if serializeOk then
        if writeOk then
          ⟨"OK", some (original_raw_config ++ new_raw_config), true⟩
        else ⟨"Unable to write newly generated config.", none, false⟩
      else ⟨"Unable to generate new config.", none, false⟩

/-- The `while let Some(i) = position(...) { remove(i) }` loop of
`remove_rules` (`src/main.rs` lines 131–136): repeatedly find the first
entry whose `ip` equals the path argument and remove it, until none
remains. `List.eraseP` removes exactly the first matching entry. -/
def removeLoop (ip : String) (l : List RawConfig) : List RawConfig :=
  if h : l.any (fun raw_config => raw_config.ip == ip) then
    removeLoop ip (l.eraseP (fun raw_config => raw_config.ip == ip))
  else l
termination_by l.length
decreasing_by
  simp only [List.any_eq_true] at h
  obtain ⟨a, ha, hpa⟩ := h
  have := @List.length_eraseP_add_one RawConfig
    (fun raw_config => raw_config.ip == ip) l a ha hpa
  omega

/-- The `remove_rules` handler of `src/main.rs` lines 121–149, abstracted
like `add_rules`; `ip` is the `{ip}` path parameter. -/
def remove_rules (configPath : Option String) (readRes : Option (List RawConfig))
    (serializeOk writeOk : Bool) (ip : String) : CtrlOutcome :=
  match configPath with
  | none => ⟨"Couldn't get config path.", none, false⟩
  | some _ =>
    match readRes with
    | none => ⟨"Original config is invalid.", none, false⟩
    | some original_raw_config =>
      let remaining := removeLoop ip original_raw_config
      if serializeOk then
        if writeOk then ⟨"OK", some remaining, true⟩
        else ⟨"Unable to write newly generated config.", none, false⟩
      else ⟨"Unable to generate new config.", none, false⟩

/-! ## Order lemmas for the `BTreeSet` key type -/

theorem sockLt_irrefl (s : SockAddrV4) : sockLt s s = false := by
  simp [sockLt]

theorem sockLt_trans {s t u : SockAddrV4} (h1 : sockLt s t = true)
    (h2 : sockLt t u = true) : sockLt s u = true := by
  obtain ⟨⟨a⟩, p⟩ := s
  obtain ⟨⟨b⟩, q⟩ := t
  obtain ⟨⟨c⟩, r⟩ := u
  simp only [sockLt, Bool.or_eq_true, Bool.and_eq_true, decide_eq_true_eq] at *
  omega

theorem sockLt_conn {s t : SockAddrV4} (h1 : sockLt s t = false)
    (h2 : sockLt t s = false) : s = t := by
  obtain ⟨⟨a⟩, p⟩ := s
  obtain ⟨⟨b⟩, q⟩ := t
  simp only [sockLt, Bool.or_eq_false_iff, Bool.and_eq_false_iff,
    decide_eq_false_iff_not, Nat.not_lt] at h1 h2
  simp only [SockAddrV4.mk.injEq, Ipv4.mk.injEq]
  omega

theorem pairLtb_irrefl (x : AddrPair) : pairLtb x x = false := by
  simp [pairLtb, sockLt_irrefl]

theorem pairLtb_trans {x y z : AddrPair} (h1 : pairLtb x y = true)
    (h2 : pairLtb y z = true) : pairLtb x z = true := by
  simp only [pairLtb, Bool.or_eq_true, Bool.and_eq_true, decide_eq_true_eq] at *
  rcases h1 with h1 | ⟨e1, h1⟩ <;> rcases h2 with h2 | ⟨e2, h2⟩
  · exact Or.inl (sockLt_trans h1 h2)
  · exact Or.inl (e2 ▸ h1)
  · exact Or.inl (e1 ▸ h2)
  · exact Or.inr ⟨e1.trans e2, sockLt_trans h1 h2⟩

theorem pairLtb_conn {x y : AddrPair} (h1 : pairLtb x y = false)
    (h2 : pairLtb y x = false) : x = y := by
  obtain ⟨s1, s2⟩ := x
  obtain ⟨t1, t2⟩ := y
  simp only [pairLtb, Bool.or_eq_false_iff, Bool.and_eq_false_iff,
    decide_eq_false_iff_not] at h1 h2
  obtain ⟨ha1, hb1⟩ := h1
  obtain ⟨ha2, hb2⟩ := h2
  have e1 : s1 = t1 := sockLt_conn ha1 ha2
  rcases hb1 with hb1 | hb1
  · exact absurd e1 hb1
  rcases hb2 with hb2 | hb2
  · exact absurd e1.symm hb2
  have e2 : s2 = t2 := sockLt_conn hb1 hb2
  rw [e1, e2]

theorem pairLtb_asymm {x y : AddrPair} (h : pairLtb x y = true) :
    pairLtb y x = false := by
  cases hxy : pairLtb y x
  · rfl
  · have := pairLtb_trans h hxy
    rw [pairLtb_irrefl] at this
    exact absurd this (by simp)

theorem pairLtb_of_not_lt_of_ne {x y : AddrPair} (h1 : pairLtb x y = false)
    (h2 : ¬x = y) : pairLtb y x = true := by
  cases hyx : pairLtb y x
  · exact absurd (pairLtb_conn h1 hyx) h2
  · rfl

/-! ## `BTreeSet` collection lemmas -/

theorem mem_setInsert (a x : AddrPair) (l : List AddrPair) :
    a ∈ setInsert x l ↔ a = x ∨ a ∈ l := by
  induction l with
  | nil => simp [setInsert]
  | cons y ys ih =>
    simp only [setInsert]
    split
    · simp
    · split
      · rename_i heq
        subst heq
        simp only [List.mem_cons]
        constructor
        · exact Or.inr
        · rintro (h | h)
          · exact Or.inl h
          · exact h
      · simp only [List.mem_cons, ih]
        tauto

theorem sorted_setInsert {x : AddrPair} {l : List AddrPair}
    (h : l.Pairwise (fun a b => pairLtb a b = true)) :
    (setInsert x l).Pairwise (fun a b => pairLtb a b = true) := by
  induction l with
  | nil => simp [setInsert]
  | cons y ys ih =>
    rw [List.pairwise_cons] at h
    obtain ⟨hy, hys⟩ := h
    simp only [setInsert]
    split
    · rename_i hlt
      refine List.Pairwise.cons ?_ (List.Pairwise.cons hy hys)
      intro b hb
      rcases List.mem_cons.mp hb with rfl | hb
      · exact hlt
      · exact pairLtb_trans hlt (hy b hb)
    · split
      · exact List.Pairwise.cons hy hys
      · rename_i hlt hne
        refine List.Pairwise.cons ?_ (ih hys)
        intro b hb
        rcases (mem_setInsert b x ys).mp hb with rfl | hb
        · exact pairLtb_of_not_lt_of_ne (Bool.eq_false_iff.mpr hlt) hne
        · exact hy b hb

theorem mem_foldl_setInsert (l : List AddrPair) (s : List AddrPair) (a : AddrPair) :
    a ∈ l.foldl (fun acc x => setInsert x acc) s ↔ a ∈ s ∨ a ∈ l := by
  induction l generalizing s with
  | nil => simp
  | cons x xs ih =>
    simp only [List.foldl_cons, ih, mem_setInsert, List.mem_cons]
    tauto

theorem sorted_foldl_setInsert (l : List AddrPair) {s : List AddrPair}
    (hs : s.Pairwise (fun a b => pairLtb a b = true)) :
    (l.foldl (fun acc x => setInsert x acc) s).Pairwise (fun a b => pairLtb a b = true) := by
  induction l generalizing s with
  | nil => exact hs
  | cons x xs ih => exact ih (sorted_setInsert hs)

theorem mem_btreeOfList (l : List AddrPair) (a : AddrPair) :
    a ∈ btreeOfList l ↔ a ∈ l := by
  simp [btreeOfList, mem_foldl_setInsert]

theorem sorted_btreeOfList (l : List AddrPair) :
    (btreeOfList l).Pairwise (fun a b => pairLtb a b = true) := by
  exact sorted_foldl_setInsert l List.Pairwise.nil

theorem sorted_eq_of_mem_iff :
    ∀ {l₁ l₂ : List AddrPair}, l₁.Pairwise (fun a b => pairLtb a b = true) →
      l₂.Pairwise (fun a b => pairLtb a b = true) →
      (∀ a, a ∈ l₁ ↔ a ∈ l₂) → l₁ = l₂
  | [], [], _, _, _ => rfl
  | [], b :: l₂, _, _, hmem => absurd ((hmem b).mpr (List.mem_cons_self b l₂)) (by simp)
  | a :: l₁, [], _, _, hmem => absurd ((hmem a).mp (List.mem_cons_self a l₁)) (by simp)
  | x :: xs, y :: ys, h1, h2, hmem => by
    rw [List.pairwise_cons] at h1 h2
    obtain ⟨hx, hxs⟩ := h1
    obtain ⟨hy, hys⟩ := h2
    have hxy : x = y := by
      by_contra hne
      rcases List.mem_cons.mp ((hmem x).mp (List.mem_cons_self x xs)) with h | h
      · exact hne h
      · rcases List.mem_cons.mp ((hmem y).mpr (List.mem_cons_self y ys)) with h' | h'
        · exact hne h'.symm
        · have l1 := hy x h
          have l2 := hx y h'
          rw [pairLtb_asymm l2] at l1
          exact absurd l1 (by simp)
    subst hxy
    have htail : ∀ a, a ∈ xs ↔ a ∈ ys := by
      intro a
      constructor
      · intro ha
        rcases List.mem_cons.mp ((hmem a).mp (List.mem_cons_of_mem x ha)) with rfl | h
        · have := hx a ha
          rw [pairLtb_irrefl] at this
          exact absurd this (by simp)
        · exact h
      · intro ha
        rcases List.mem_cons.mp ((hmem a).mpr (List.mem_cons_of_mem x ha)) with rfl | h
        · have := hy a ha
          rw [pairLtb_irrefl] at this
          exact absurd this (by simp)
        · exact h
    rw [sorted_eq_of_mem_iff hxs hys htail]

theorem btreeOfList_perm_eq {l₁ l₂ : List AddrPair} (h : l₁.Perm l₂) :
    btreeOfList l₁ = btreeOfList l₂ := by
  refine sorted_eq_of_mem_iff (sorted_btreeOfList l₁) (sorted_btreeOfList l₂) ?_
  intro a
  rw [mem_btreeOfList, mem_btreeOfList]
  exact ⟨fun ha => h.mem_iff.mp ha, fun ha => h.mem_iff.mpr ha⟩

/-! ## Range-zipping lemmas -/

theorem zip_range' : ∀ (m k a b : Nat),
    (List.range' a m).zip (List.range' b k) =
      (List.range (min m k)).map (fun i => (a + i, b + i))
  | 0, _, _, _ => by simp
  | _ + 1, 0, _, _ => by simp
  | m + 1, k + 1, a, b => by
    have ih := zip_range' m k (a + 1) (b + 1)
    rw [List.range'_succ, List.range'_succ, List.zip_cons_cons, ih,
      Nat.succ_min_succ, List.range_succ_eq_map, List.map_cons, List.map_map]
    refine congrArg₂ _ (by simp) ?_
    refine List.map_congr_left ?_
    intro i _
    simp only [Function.comp_apply]
    refine congrArg₂ _ (by omega) (by omega)

theorem rangeIncl_eq_range' (s e : Nat) :
    rangeIncl s e = List.range' s (lenIncl s e) := by
  unfold rangeIncl lenIncl
  split
  · rfl
  · rfl

theorem zip_rangeIncl (ss se ts te : Nat) :
    (rangeIncl ss se).zip (rangeIncl ts te) =
      (List.range (min (lenIncl ss se) (lenIncl ts te))).map (fun i => (ss + i, ts + i)) := by
  rw [rangeIncl_eq_range', rangeIncl_eq_range', zip_range']

/-! ## The `remove_rules` purge loop computes a filter -/

theorem filter_eraseP (ip : String) (l : List RawConfig) :
    (l.eraseP (fun raw_config => raw_config.ip == ip)).filter
        (fun raw_config => !(raw_config.ip == ip)) =
      l.filter (fun raw_config => !(raw_config.ip == ip)) := by
  induction l with
  | nil => rfl
  | cons c rest ih =>
    cases hc : (c.ip == ip) with
    | true => simp [List.eraseP_cons, hc]
    | false => simp [List.eraseP_cons, hc, List.filter_cons, ih]

theorem removeLoop_eq_filter (ip : String) (l : List RawConfig) :
    removeLoop ip l = l.filter (fun raw_config => !(raw_config.ip == ip)) := by
  generalize hn : l.length = n
  induction n using Nat.strong_induction_on generalizing l with
  | _ n ih =>
    rw [removeLoop]
    split
    · rename_i h
      have hlt : (l.eraseP (fun raw_config => raw_config.ip == ip)).length < n := by
        simp only [List.any_eq_true] at h
        obtain ⟨a, ha, hpa⟩ := h
        have := @List.length_eraseP_add_one RawConfig
          (fun raw_config => raw_config.ip == ip) l a ha hpa
        omega
      rw [ih _ hlt _ rfl, filter_eraseP]
    · rename_i h
      rw [List.filter_eq_self.mpr]
      intro a ha
      simp only [List.any_eq_true, not_exists] at h
      rcases Bool.eq_false_or_eq_true (a.ip == ip) with ht | hf
      · exact absurd ⟨ha, ht⟩ (h a)
      · simp [hf]

/-! ## Claim theorems -/

/-- Claim C1: for every raw-rule list and every permutation of it,
`ProxyConfig::from_raw` returns the same result — a sequence with no
duplicate (listen, upstream) address pairs, sorted lexicographically by
upstream address (`source_addr`) then by listen address (`target_addr`),
independent of the input order. -/
theorem from_raw_perm_deterministic (l₁ l₂ : List RawConfig) (h : l₁.Perm l₂) :
    ProxyConfig.from_raw l₁ = ProxyConfig.from_raw l₂ ∧
    (ProxyConfig.from_raw l₁).Pairwise (fun c d => configLt c d = true) ∧
    (ProxyConfig.from_raw l₁).Pairwise
      (fun c d => ¬(c.target_addr = d.target_addr ∧ c.source_addr = d.source_addr)) := by
  have hperm : ((l₁.filterMap emitPairs).flatten).Perm ((l₂.filterMap emitPairs).flatten) :=
    (h.filterMap emitPairs).flatten
  refine ⟨?_, ?_, ?_⟩
  · unfold ProxyConfig.from_raw
    rw [btreeOfList_perm_eq hperm]
  · unfold ProxyConfig.from_raw
    rw [List.pairwise_map]
    refine (sorted_btreeOfList _).imp ?_
    intro a b hab
    exact hab
  · unfold ProxyConfig.from_raw
    rw [List.pairwise_map]
    refine (sorted_btreeOfList _).imp ?_
    intro a b hab hcontra
    obtain ⟨h2, h1⟩ := hcontra
    have heq : a = b := by
      obtain ⟨a1, a2⟩ := a
      obtain ⟨b1, b2⟩ := b
      simp only [ProxyConfig.new] at h1 h2
      rw [h1, h2]
    rw [heq, pairLtb_irrefl] at hab
    simp at hab

/-- Witness for C1: two concrete rules, in both orders. -/
theorem from_raw_perm_deterministic_witness :
    ProxyConfig.from_raw
        [⟨"1.2.3.4", SourcePortOptions.Single 8080, TargetPortOptions.Single 80⟩,
         ⟨"5.6.7.8", SourcePortOptions.Range 10 11, TargetPortOptions.Range 20 21⟩] =
      ProxyConfig.from_raw
        [⟨"5.6.7.8", SourcePortOptions.Range 10 11, TargetPortOptions.Range 20 21⟩,
         ⟨"1.2.3.4", SourcePortOptions.Single 8080, TargetPortOptions.Single 80⟩] ∧
    (ProxyConfig.from_raw
        [⟨"1.2.3.4", SourcePortOptions.Single 8080, TargetPortOptions.Single 80⟩,
         ⟨"5.6.7.8", SourcePortOptions.Range 10 11, TargetPortOptions.Range 20 21⟩]).Pairwise
      (fun c d => configLt c d = true) ∧
    (ProxyConfig.from_raw
        [⟨"1.2.3.4", SourcePortOptions.Single 8080, TargetPortOptions.Single 80⟩,
         ⟨"5.6.7.8", SourcePortOptions.Range 10 11, TargetPortOptions.Range 20 21⟩]).Pairwise
      (fun c d => ¬(c.target_addr = d.target_addr ∧ c.source_addr = d.source_addr)) :=
  from_raw_perm_deterministic _ _ (by decide)

/-- Claim C2: a raw rule whose `port` and `target_port` are both `Range`
(and whose IP parses) contributes pairs formed by ascending positional
zipping — position `i` pairs source port `start + i` with target port
`start + i` — and exactly `min` of the two inclusive-range lengths many
pairs; a length mismatch does not reject the rule. -/
theorem ranges_zip_min_pairs (raw_config : RawConfig) (ipv : Ipv4) (ss se ts te : Nat)
    (hip : parseIpv4 raw_config.ip = some ipv)
    (hp : raw_config.port = SourcePortOptions.Range ss se)
    (ht : raw_config.target_port = TargetPortOptions.Range ts te) :
    emitPairs raw_config =
      some ((List.range (min (lenIncl ss se) (lenIncl ts te))).map
        (fun i => (SockAddrV4.new ipv (ss + i), SockAddrV4.new wildcardIp (ts + i)))) ∧
    ((List.range (min (lenIncl ss se) (lenIncl ts te))).map
        (fun i => (SockAddrV4.new ipv (ss + i), SockAddrV4.new wildcardIp (ts + i)))).length =
      min (lenIncl ss se) (lenIncl ts te) := by
  constructor
  · simp only [emitPairs, hip, hp, ht]
    rw [zip_rangeIncl, List.map_map]
    rfl
  · rw [List.length_map, List.length_range]

/-- Witness for C2 at the spec's truncation example: source range 100–103
(4 values) against target range 200–201 (2 values). -/
theorem ranges_zip_min_pairs_witness :
    parseIpv4 "1.2.3.4" = some (Ipv4.new 1 2 3 4) ∧
    (emitPairs ⟨"1.2.3.4", SourcePortOptions.Range 100 103, TargetPortOptions.Range 200 201⟩ =
      some ((List.range (min (lenIncl 100 103) (lenIncl 200 201))).map
        (fun i => (SockAddrV4.new (Ipv4.new 1 2 3 4) (100 + i),
                   SockAddrV4.new wildcardIp (200 + i)))) ∧
    ((List.range (min (lenIncl 100 103) (lenIncl 200 201))).map
        (fun i => (SockAddrV4.new (Ipv4.new 1 2 3 4) (100 + i),
                   SockAddrV4.new wildcardIp (200 + i)))).length =
      min (lenIncl 100 103) (lenIncl 200 201)) :=
  ⟨by decide,
   ranges_zip_min_pairs
     ⟨"1.2.3.4", SourcePortOptions.Range 100 103, TargetPortOptions.Range 200 201⟩
     (Ipv4.new 1 2 3 4) 100 103 200 201 (by decide) rfl rfl⟩

/-- Claim C3: the raw rule `{ip:"1.2.3.4", port:8080, target_port:80}`
normalizes to exactly one `ProxyConfig` whose listen (target) address is
the wildcard `0.0.0.0:80` and whose upstream (source) address is
`1.2.3.4:8080`; `start_proxy` binds the listen address and dials the
upstream address. -/
theorem single_rule_normalization :
    ProxyConfig.from_raw
        [⟨"1.2.3.4", SourcePortOptions.Single 8080, TargetPortOptions.Single 80⟩] =
      [⟨SockAddrV4.new (Ipv4.new 1 2 3 4) 8080, SockAddrV4.new (Ipv4.new 0 0 0 0) 80⟩] ∧
    ProxyConfig.bind_addr
        ⟨SockAddrV4.new (Ipv4.new 1 2 3 4) 8080, SockAddrV4.new (Ipv4.new 0 0 0 0) 80⟩ =
      SockAddrV4.new (Ipv4.new 0 0 0 0) 80 ∧
    ProxyConfig.connect_addr
        ⟨SockAddrV4.new (Ipv4.new 1 2 3 4) 8080, SockAddrV4.new (Ipv4.new 0 0 0 0) 80⟩ =
      SockAddrV4.new (Ipv4.new 1 2 3 4) 8080 :=
  ⟨by decide, rfl, rfl⟩

/-- Claim C4: a raw rule whose IP fails to parse, or whose port options are
neither both `Single` nor both `Range`, contributes zero pairs, and removing
it from any input leaves `from_raw`'s result unchanged — the other rules'
contributions are unaffected. -/
theorem invalid_rule_skipped (raw_config : RawConfig) (l₁ l₂ : List RawConfig)
    (h : parseIpv4 raw_config.ip = none ∨ portKindsMismatch raw_config = true) :
    emitPairs raw_config = none ∧
    ProxyConfig.from_raw (l₁ ++ raw_config :: l₂) = ProxyConfig.from_raw (l₁ ++ l₂) := by
  have hnone : emitPairs raw_config = none := by
    rcases h with h | h
    · simp [emitPairs, h]
    · cases hip : parseIpv4 raw_config.ip with
      | none => simp [emitPairs, hip]
      | some ipv =>
        cases hp : raw_config.port <;> cases ht : raw_config.target_port <;>
          simp_all [emitPairs, portKindsMismatch]
  refine ⟨hnone, ?_⟩
  unfold ProxyConfig.from_raw
  simp [List.filterMap_append, List.filterMap_cons, hnone]

/-- Witness for C4: an unparseable IP (octet 999) between two valid rules. -/
theorem invalid_rule_skipped_witness :
    (parseIpv4 "999.0.0.1" = none ∨
      portKindsMismatch ⟨"999.0.0.1", SourcePortOptions.Single 1, TargetPortOptions.Single 2⟩ = true) ∧
    (emitPairs ⟨"999.0.0.1", SourcePortOptions.Single 1, TargetPortOptions.Single 2⟩ = none ∧
    ProxyConfig.from_raw
        ([⟨"1.2.3.4", SourcePortOptions.Single 8080, TargetPortOptions.Single 80⟩] ++
          ⟨"999.0.0.1", SourcePortOptions.Single 1, TargetPortOptions.Single 2⟩ ::
          [⟨"5.6.7.8", SourcePortOptions.Single 9, TargetPortOptions.Single 10⟩]) =
      ProxyConfig.from_raw
        ([⟨"1.2.3.4", SourcePortOptions.Single 8080, TargetPortOptions.Single 80⟩] ++
          [⟨"5.6.7.8", SourcePortOptions.Single 9, TargetPortOptions.Single 10⟩])) :=
  ⟨Or.inl (by decide),
   invalid_rule_skipped ⟨"999.0.0.1", SourcePortOptions.Single 1, TargetPortOptions.Single 2⟩
     [⟨"1.2.3.4", SourcePortOptions.Single 8080, TargetPortOptions.Single 80⟩]
     [⟨"5.6.7.8", SourcePortOptions.Single 9, TargetPortOptions.Single 10⟩]
     (Or.inl (by decide))⟩

/-- Counterexample to claim C5: when `getrlimit` succeeds with a soft limit
the code deems insufficient (`soft_limit <= proxy_config.len()`) and the
`setrlimit` call fails, the `?` operator on `setrlimit(...)` propagates the
error out of the orchestrator — the raise failure terminates the run
instead of being logged and survived. -/
theorem limit_raise_failure_fatal_cex :
    (limit_step (some (1, 100)) false 1).fst = LimitOutcome.fatal := by decide

/-- Claim C5 amended: failure to query the limit (`getrlimit` error) is
non-fatal — a warning, after which the listeners are still launched — but
failure to raise the limit (`setrlimit` error on the insufficient-soft-limit
path) is fatal: the orchestrator terminates with the error. -/
theorem limit_failure_modes (soft hard ruleCount : Nat) (setOk : Bool)
    (h : soft ≤ ruleCount) :
    (limit_step none setOk ruleCount).fst = LimitOutcome.warned ∧
    (limit_step (some (soft, hard)) false ruleCount).fst = LimitOutcome.fatal := by
  refine ⟨rfl, ?_⟩
  simp [limit_step, h]

/-- Witness for the amended C5. -/
theorem limit_failure_modes_witness :
    (3 : Nat) ≤ 5 ∧
    ((limit_step none true 5).fst = LimitOutcome.warned ∧
      (limit_step (some (3, 100)) false 5).fst = LimitOutcome.fatal) :=
  ⟨by decide, limit_failure_modes 3 100 5 true (by decide)⟩

/-- Counterexample to claim C6: with 5 rules and current soft limit 5 (which
the code deems insufficient, as `soft_limit <= len`), the value passed to
`setrlimit` is `5 / 10 * 20 + 1 = 1` — not strictly greater than the
current soft limit 5 and smaller than the rule count, i.e. not a raise. -/
theorem limit_value_not_a_raise_cex :
    (limit_step (some (5, 100)) true 5).snd = some (1, 100) ∧
    desired_limit 5 = 1 ∧ (1 : Nat) < 5 := by decide

/-- Claim C6 amended: whenever the current soft limit is at most the rule
count, the soft value passed to `setrlimit` is `ruleCount / 10 * 20 + 1`
and the hard value is exactly the previously queried hard limit; the soft
value is strictly greater than both the current soft limit and the rule
count whenever there are at least 10 rules (for fewer rules it is 1 and can
be below the current soft limit). -/
theorem limit_set_arguments (soft hard ruleCount : Nat) (setOk : Bool)
    (h : soft ≤ ruleCount) :
    (limit_step (some (soft, hard)) setOk ruleCount).snd =
      some (desired_limit ruleCount, hard) ∧
    (10 ≤ ruleCount → soft < desired_limit ruleCount ∧
      ruleCount < desired_limit ruleCount) := by
  constructor
  · cases setOk <;> simp [limit_step, h]
  · intro h10
    unfold desired_limit
    omega

/-- Witness for the amended C6. -/
theorem limit_set_arguments_witness :
    (7 : Nat) ≤ 25 ∧
    ((limit_step (some (7, 100)) true 25).snd = some (desired_limit 25, 100) ∧
      (10 ≤ 25 → 7 < desired_limit 25 ∧ 25 < desired_limit 25)) :=
  ⟨by decide, limit_set_arguments 7 100 25 true (by decide)⟩

/-- Claim C7: `add_rules` appends the new raw rules after the existing ones
(preserving their order), writes the result back and fires the restart
signal, answering "OK"; a read, serialize or write failure short-circuits
with its own distinct status string, writes nothing and does not fire the
signal. -/
theorem add_rules_contract (p : String) (orig newRules : List RawConfig) (s w : Bool) :
    add_rules (some p) (some orig) true true newRules =
      ⟨"OK", some (orig ++ newRules), true⟩ ∧
    add_rules (some p) none s w newRules =
      ⟨"Original config is invalid.", none, false⟩ ∧
    add_rules (some p) (some orig) false w newRules =
      ⟨"Unable to generate new config.", none, false⟩ ∧
    add_rules (some p) (some orig) true false newRules =
      ⟨"Unable to write newly generated config.", none, false⟩ ∧
    ["Couldn't get config path.", "Original config is invalid.",
     "Unable to generate new config.", "Unable to write newly generated config.",
     "OK"].Nodup := by
  refine ⟨rfl, rfl, ?_, rfl, by decide⟩
  cases w <;> rfl

/-- Claim C8: `remove_rules` purges from the persisted store every entry
whose `ip` equals the argument — duplicates included, so no matching entry
remains in the written-back store — keeping the non-matching entries in
their relative order (the written list is the matching-free filter, a
sublist of the original), then fires the restart signal; each failure kind
short-circuits with its own status, writing nothing and firing nothing. -/
theorem remove_rules_contract (p ip : String) (orig : List RawConfig) (s w : Bool) :
    remove_rules (some p) (some orig) true true ip =
      ⟨"OK", some (orig.filter (fun raw_config => !(raw_config.ip == ip))), true⟩ ∧
    (∀ raw_config ∈ orig.filter (fun raw_config => !(raw_config.ip == ip)),
      raw_config.ip ≠ ip) ∧
    (orig.filter (fun raw_config => !(raw_config.ip == ip))).Sublist orig ∧
    remove_rules (some p) none s w ip =
      ⟨"Original config is invalid.", none, false⟩ ∧
    remove_rules (some p) (some orig) false w ip =
      ⟨"Unable to generate new config.", none, false⟩ ∧
    remove_rules (some p) (some orig) true false ip =
      ⟨"Unable to write newly generated config.", none, false⟩ := by
  refine ⟨?_, ?_, List.filter_sublist orig, rfl, ?_, ?_⟩
  · simp [remove_rules, removeLoop_eq_filter]
  · intro raw_config hmem
    have := (List.mem_filter.mp hmem).2
    simpa using this
  · cases w <;> simp [remove_rules]
  · simp [remove_rules]

/-- Claim C10: before the orchestrator has initialized the shared
configuration path (`CONFIG_PATH.get()` returns nothing), both handlers
answer "Couldn't get config path.", write nothing, do not fire the restart
signal, and their result does not depend on any store read. -/
theorem no_config_path (readRes : Option (List RawConfig)) (s w : Bool)
    (newRules : List RawConfig) (ip : String) :
    add_rules none readRes s w newRules =
      ⟨"Couldn't get config path.", none, false⟩ ∧
    remove_rules none readRes s w ip =
      ⟨"Couldn't get config path.", none, false⟩ :=
  ⟨rfl, rfl⟩

/-- Counterexample to claim C9: for the rule with source range
`{start: 1, end: 0}`, the u16 subtraction `source_end - source_start` in
`from_raw`'s range-length comparison underflows — in release builds it
wraps (`0 - 1` becomes 65535), with debug assertions it panics — contrary
to the claim that the subtractions never underflow. -/
theorem range_sub_underflow_cex :
    rangeSubUnderflows
        ⟨"1.2.3.4", SourcePortOptions.Range 1 0, TargetPortOptions.Range 0 0⟩ = true ∧
    u16_wsub 0 1 = 65535 := by decide

/-- Claim C9 amended: for a both-`Range` rule (with a parseable IP) whose
source or target range has `end < start`, the u16 subtraction in the
length comparison underflows (wrapping modulo 2^16 under release
semantics); the rule nevertheless contributes zero pairs, since the zipped
inclusive ranges are empty, so normalization under wrapping semantics is
total and yields no pair for the reversed range. -/
theorem reversed_range_contributes_nothing (raw_config : RawConfig) (ipv : Ipv4)
    (ss se ts te : Nat)
    (hip : parseIpv4 raw_config.ip = some ipv)
    (hp : raw_config.port = SourcePortOptions.Range ss se)
    (ht : raw_config.target_port = TargetPortOptions.Range ts te)
    (hrev : se < ss ∨ te < ts) :
    rangeSubUnderflows raw_config = true ∧ emitPairs raw_config = some [] := by
  constructor
  · unfold rangeSubUnderflows
    rw [hp, ht]
    rcases hrev with h | h <;> simp [h]
  · simp only [emitPairs, hip, hp, ht]
    rcases hrev with h | h
    · rw [show rangeIncl ss se = [] from by unfold rangeIncl; rw [if_neg (by omega)]]
      simp
    · rw [show rangeIncl ts te = [] from by unfold rangeIncl; rw [if_neg (by omega)]]
      simp

/-- Witness for the amended C9. -/
theorem reversed_range_contributes_nothing_witness :
    parseIpv4 "9.9.9.9" = some (Ipv4.new 9 9 9 9) ∧ ((3 : Nat) < 7 ∨ (0 : Nat) < 5) ∧
    (rangeSubUnderflows
        ⟨"9.9.9.9", SourcePortOptions.Range 7 3, TargetPortOptions.Range 5 6⟩ = true ∧
      emitPairs ⟨"9.9.9.9", SourcePortOptions.Range 7 3, TargetPortOptions.Range 5 6⟩ =
        some []) :=
  ⟨by decide, Or.inl (by decide),
   reversed_range_contributes_nothing
     ⟨"9.9.9.9", SourcePortOptions.Range 7 3, TargetPortOptions.Range 5 6⟩
     (Ipv4.new 9 9 9 9) 7 3 5 6 (by decide) rfl rfl (Or.inl (by decide))⟩

end TcpProxy
